import Mathlib

/-!
Verification development for the rTest repository (a Reticulum range-test
tool).  The embedding below translates the probe-correlation engine of
`src/rtest_client.py` (class `SimpleRangeTest`) and the two `RangeTestClient`
variants concatenated in `src/rtest_gps.py`, together with the export
pipeline, into Lean definitions, and proves the frozen claims about them.

Conventions of the embedding:
* Python `time.time()` timestamps are modelled as `Int` values supplied by the
  environment at each step.
* The Python dict `self.pings` (sequence number -> send timestamp) is
  modelled as an insertion-ordered association list `List (Nat × Int)` with
  the dict operations `findPing` (membership / lookup), `erasePing` (`del`),
  and `setPing` (item assignment).
* An inbound packet payload, after `json.loads`, either fails to decode, is a
  JSON object without a truthy `pong` field, or carries `pong = n`; the three
  cases are the constructors of `InMsg`.  A `pong` value of `0` is falsy in
  Python (`if msg.get('pong'):`), which the embedding reflects explicitly.
* External effects (GPS sampling, send success or failure, packet RSSI/SNR)
  are inputs of the corresponding step functions.
-/

/-- Dict lookup `n in d` / `d[n]` on the pings table
(`src/rtest_client.py` line 123). -/
def findPing (n : Nat) : List (Nat × Int) → Option Int
  | [] => none
  | (k, t) :: rest => if k = n then some t else findPing n rest

/-- Dict deletion `del d[n]` on the pings table
(`src/rtest_client.py` line 125). -/
def erasePing (n : Nat) : List (Nat × Int) → List (Nat × Int)
  | [] => []
  | (k, t) :: rest => if k = n then rest else (k, t) :: erasePing n rest

/-- Dict assignment `d[n] = t` on the pings table
(`src/rtest_client.py` line 159): overwrite if present, append otherwise. -/
def setPing (n : Nat) (t : Int) : List (Nat × Int) → List (Nat × Int)
  | [] => [(n, t)]
  | (k, u) :: rest => if k = n then (n, t) :: rest else (k, u) :: setPing n t rest

/-- The timeout sweep body of the run loop (`src/rtest_client.py` lines
199-203): iterate over a snapshot of the table, delete every entry with
`now - t > ping_timeout`, and emit one timeout event (the printed
`Timeout #n` line) per deleted entry.  Returns the surviving table and the
evicted sequence numbers. -/
def sweepPings (timeout now : Int) : List (Nat × Int) → List (Nat × Int) × List Nat
  | [] => ([], [])
  | (n, t) :: rest =>
    let r := sweepPings timeout now rest
    if timeout < now - t then (r.1, n :: r.2) else ((n, t) :: r.1, r.2)

/-- One line of the append-only measurement log written by
`SimpleRangeTest.got_packet` (`src/rtest_client.py` lines 129-134):
`{"n": n, "rtt": rtt, "time": ...}`. -/
structure MeasurementEntry where
  n : Nat
  rtt : Int
  time : Int
deriving Repr, DecidableEq

/-- The mutable state of `SimpleRangeTest` relevant to probe correlation:
`self.pings`, `self.count`, `self.success`, and the append-only log file. -/
structure ClientState where
  pings : List (Nat × Int)
  count : Nat
  success : Nat
  log : List MeasurementEntry
deriving Repr, DecidableEq

/-- Initial state set in `SimpleRangeTest.__init__`
(`src/rtest_client.py` lines 71-73). -/
def initState : ClientState := ⟨[], 0, 0, []⟩

/-- Decode result of an inbound payload: decoding failure (or any exception,
swallowed by the bare `except`), a JSON object whose `pong` field is absent
or falsy, or a pong carrying sequence number `n` (truthy iff `n ≠ 0`). -/
inductive InMsg where
  | malformed
  | nonPong
  | pong (n : Nat)
deriving Repr, DecidableEq

namespace SimpleRangeTest

/-- `SimpleRangeTest.got_packet` (`src/rtest_client.py` lines 118-136):
on a truthy pong whose sequence is pending, compute `rtt = now - sent_at`,
delete the pending entry, increment `success`, and append one log line;
otherwise do nothing (malformed payloads are swallowed by `except: pass`). -/
def got_packet (st : ClientState) (m : InMsg) (now : Int) : ClientState :=
  match m with
  | .pong n =>
    if n = 0 then st
    else
      match findPing n st.pings with
      | some t =>
        { st with
          pings := erasePing n st.pings
          success := st.success + 1
          log := st.log ++ [⟨n, now - t, now⟩] }
      | none => st
  | _ => st

/-- `SimpleRangeTest.ping` (`src/rtest_client.py` lines 138-162).
`haveDest` models `self.server_dest is None` (negated); when the destination
is unresolved the method requests a path and returns without touching the
counters.  Otherwise `self.count` is incremented first; the pending entry
`pings[count] = now` is recorded only after `p.send()` returns without
raising, so `sendOk = false` leaves the table unchanged. -/
def ping (st : ClientState) (now : Int) (haveDest sendOk : Bool) : ClientState :=
  if haveDest then
    if sendOk then
      { st with
        count := st.count + 1
        pings := setPing (st.count + 1) now st.pings }
    else
      { st with count := st.count + 1 }
  else st

/-- The timeout sweep of `SimpleRangeTest.run` (`src/rtest_client.py` lines
199-203) applied to the client state: evict expired entries, leaving the
counters and the log untouched, and return the evicted sequence numbers. -/
def sweep_expired (st : ClientState) (timeout now : Int) : ClientState × List Nat :=
  let r := sweepPings timeout now st.pings
  ({ st with pings := r.1 }, r.2)

/-- One transition of the client: a scheduler tick, an inbound delivery, or
a timeout sweep (the three places that mutate the shared state). -/
inductive Step : ClientState → ClientState → Prop where
  | tick (st : ClientState) (now : Int) (haveDest sendOk : Bool) :
      Step st (ping st now haveDest sendOk)
  | recv (st : ClientState) (m : InMsg) (now : Int) :
      Step st (got_packet st m now)
  | sweep (st : ClientState) (timeout now : Int) :
      Step st (sweep_expired st timeout now).1

/-- States reachable from the freshly initialised client. -/
inductive Reachable : ClientState → Prop where
  | init : Reachable initState
  | step {s s' : ClientState} : Reachable s → Step s s' → Reachable s'

end SimpleRangeTest

/-! ### Embedding of `src/rtest_gps.py`

The file contains two complete program variants concatenated: a strict-GPS
client (lines 84-615, appends a measurement only when geolocated) and a
lenient one (lines 685-1054, always appends).  Both define a class named
`RangeTestClient`; they are embedded in the namespaces `RangeTestClientV1`
and `RangeTestClientV2`. -/

/-- Result dict of `get_gps_termux` (`src/rtest_gps.py` lines 61-82): on
success all six keys are present, each possibly `None` (built with
`data.get(...)`), so a later `gps.get(key, default)` returns the stored
optional value; the whole result is `None` on failure or timeout.
Coordinates are modelled as integers. -/
structure Gps where
  latitude : Option Int
  longitude : Option Int
  altitude : Option Int
  accuracy : Option Int
  speed : Option Int
  bearing : Option Int
deriving Repr, DecidableEq

/-- Python truthiness of `gps.get('latitude')`: present and nonzero. -/
def gpsTruthyLat (g : Gps) : Bool :=
  match g.latitude with
  | some v => decide (v ≠ 0)
  | none => false

/-- A measurement entry of the GPS variants: the first variant (lines
169-178) stores `ping`, `rtt`, `timestamp`, `gps`, `rssi`, `snr`; the second
(lines 763-768) stores no link fields, modelled as `rssi = snr = none`
(matching `entry.get('rssi')` returning `None` in the exporters). -/
structure GpsEntry where
  ping : Nat
  rtt : Int
  timestamp : Int
  gps : Option Gps
  rssi : Option Int
  snr : Option Int
deriving Repr, DecidableEq

/-- The geolocation guard `if gps and gps.get('latitude'):` used by the
collector (line 167) and by every exporter. -/
def isGeo (e : GpsEntry) : Bool :=
  match e.gps with
  | some g => gpsTruthyLat g
  | none => false

/-- Number of geolocated entries in a log snapshot. -/
def countGeo (log : List GpsEntry) : Nat := (log.filter isGeo).length

/-- The recognized configuration record (`DEFAULT_CONFIG`,
`src/rtest_gps.py` lines 18-28).  Note that no field selects a strict or
lenient geolocation policy. -/
structure Config where
  display_name : String
  announce_interval : Int
  ping_interval : Int
  ping_delay : Int
  ping_timeout : Int
  path_establishment_wait : Int
  pre_ping_delay : Int
  base_station_hash : String
  log_file : String
deriving Repr, DecidableEq

/-- `DEFAULT_CONFIG` of `src/rtest_gps.py` (lines 18-28). -/
def DEFAULT_CONFIG : Config :=
  ⟨"RangeTest-Mobile", 180, 5, 0, 10, 10, 3,
    "ca60113e441aa89fe4e6443339c7becb", "range_test.json"⟩

/-- The key list of `DEFAULT_CONFIG`, in source order (lines 18-28). -/
def configKeys : List String :=
  ["display_name", "announce_interval", "ping_interval", "ping_delay",
   "ping_timeout", "path_establishment_wait", "pre_ping_delay",
   "base_station_hash", "log_file"]

/-- The mutable state of a `RangeTestClient`: `self.pings`, `self.count`,
`self.success`, and the in-memory measurement log `self.test_data`. -/
structure GpsClientState where
  pings : List (Nat × Int)
  count : Nat
  success : Nat
  test_data : List GpsEntry
deriving Repr, DecidableEq

namespace RangeTestClientV1

/-- `RangeTestClient.got_packet`, first variant (`src/rtest_gps.py` lines
149-201): on a truthy pong whose sequence is pending it deletes the pending
entry, increments `success`, samples GPS (`get_gps_termux`) and reads
`packet.rssi`/`packet.snr`; the measurement is appended to `test_data`
(followed by `write_logs`) only when the GPS sample is present with a truthy
latitude — otherwise it is displayed as `(no GPS - not logged)` and
discarded.  `self.config` is in scope but not consulted. -/
def got_packet (cfg : Config) (st : GpsClientState) (m : InMsg) (now : Int)
    (gps : Option Gps) (rssi snr : Option Int) : GpsClientState :=
  match m with
  | .pong n =>
    if n = 0 then st
    else
      match findPing n st.pings with
      | some t =>
        let st' : GpsClientState :=
          { st with pings := erasePing n st.pings, success := st.success + 1 }
        let geoOk := match gps with
          | some g => gpsTruthyLat g
          | none => false
        if geoOk then
          { st' with
            test_data := st'.test_data ++ [⟨n, now - t, now, gps, rssi, snr⟩] }
        else st'
      | none => st
  | _ => st

/-- Python `csv` writer cell for an optional value: `None` (and likewise the
`.get(key, '')` default for an entry without a `gps` dict) renders as an
empty cell. -/
def csvCell : Option Int → String
  | some v => toString v
  | none => ""

/-- Header row of `write_csv` (line 247). -/
def csvHeader : List String :=
  ["Ping", "RTT_ms", "Timestamp", "Latitude", "Longitude", "Altitude",
   "Accuracy", "Speed", "Bearing", "RSSI_dBm", "SNR_dB"]

/-- One data row of `write_csv` (lines 249-263); `round(rtt*1000, 1)` is
exact on the integral round-trip times of the embedding. -/
def csvRow (e : GpsEntry) : List String :=
  let gpsCells :=
    match e.gps with
    | some g => [csvCell g.latitude, csvCell g.longitude, csvCell g.altitude,
                 csvCell g.accuracy, csvCell g.speed, csvCell g.bearing]
    | none => ["", "", "", "", "", ""]
  [toString e.ping, toString (e.rtt * 1000), toString e.timestamp]
    ++ gpsCells ++ [csvCell e.rssi, csvCell e.snr]

/-- `write_csv` (lines 241-263): the header row followed by one row per
entry, written to `export/range_test.csv` in mode `'w'`. -/
def write_csv (log : List GpsEntry) : List (List String) :=
  csvHeader :: log.map csvRow

/-- `write_json` (lines 265-270) dumps `test_data` itself to
`export/range_test.json` in mode `'w'`. -/
def write_json (log : List GpsEntry) : List GpsEntry := log

/-- One GeoJSON `Point` Feature (lines 280-296); geometry coordinates are
`[longitude, latitude, altitude]` and the properties carry sequence, rtt,
timestamp, GPS quality fields and link metrics. -/
structure Feature where
  lon : Option Int
  lat : Option Int
  alt : Option Int
  ping : Nat
  rtt_ms : Int
  timestamp : Int
  accuracy : Option Int
  speed : Option Int
  bearing : Option Int
  rssi : Option Int
  snr : Option Int
deriving Repr, DecidableEq

def featureOf (e : GpsEntry) : Feature :=
  match e.gps with
  | some g => ⟨g.longitude, g.latitude, g.altitude, e.ping, e.rtt * 1000,
      e.timestamp, g.accuracy, g.speed, g.bearing, e.rssi, e.snr⟩
  | none => ⟨none, none, none, e.ping, e.rtt * 1000, e.timestamp,
      none, none, none, e.rssi, e.snr⟩

/-- The feature-building loop of `write_geojson` (lines 272-304): one
Feature appended per geolocated entry, in log order. -/
def write_geojson (log : List GpsEntry) : List Feature :=
  log.foldl (fun fs e => if isGeo e then fs ++ [featureOf e] else fs) []

/-- Python string of an optional numeric field (`str(None) = "None"`). -/
def optToStr : Option Int → String
  | some v => toString v
  | none => "None"

/-- The coordinate string `f"{lon},{lat},{alt}"` (lines 330 and 361). -/
def coordStr (e : GpsEntry) : String :=
  match e.gps with
  | some g =>
    let a := optToStr g.longitude
    let b := optToStr g.latitude
    let c := optToStr g.altitude
    s!"{a},{b},{c}"
  | none => ""

/-- The `coords` list built inside the path block of `write_kml`
(lines 326-331): one coordinate string per geolocated entry, in log order. -/
def kmlCoordStrs : List GpsEntry → List String
  | [] => []
  | e :: rest =>
    if isGeo e then coordStr e :: kmlCoordStrs rest else kmlCoordStrs rest

/-- The coordinate points of the KML path `LineString`.  The path
`Placemark` is emitted only under `if len(self.test_data) > 1` (line 321);
with at most one entry in the snapshot no `LineString` exists at all. -/
def kmlPathCoords (log : List GpsEntry) : List String :=
  if 1 < log.length then kmlCoordStrs log else []

/-- The path `Placemark` block of `write_kml` (lines 320-335). -/
def kmlPathBlock (log : List GpsEntry) : List String :=
  if 1 < log.length then
    ["<Placemark>", "<name>Path</name>", "<LineString>", "<coordinates>",
     String.intercalate " " (kmlCoordStrs log),
     "</coordinates>", "</LineString>",
     "<Style><LineStyle><color>ff0000ff</color><width>3</width></LineStyle></Style>",
     "</Placemark>"]
  else []

/-- RTT threshold styling of a point placemark (lines 343-348). -/
def kmlStyleOf (e : GpsEntry) : String :=
  if e.rtt * 1000 < 500 then "goodSignal"
  else if e.rtt * 1000 < 2000 then "okSignal"
  else "poorSignal"

/-- Description of a point placemark (lines 350-354). -/
def kmlDesc (e : GpsEntry) : String :=
  let r := e.rtt * 1000
  let t := e.timestamp
  let base := s!"RTT: {r}ms&lt;br/&gt;Time: {t}"
  let base := match e.rssi with
    | some v => base ++ s!"&lt;br/&gt;RSSI: {v}dBm"
    | none => base
  match e.snr with
  | some v => base ++ s!"&lt;br/&gt;SNR: {v}dB"
  | none => base

/-- Lines of one point `Placemark` (lines 356-363). -/
def kmlPointLines (e : GpsEntry) : List String :=
  let nm := e.ping
  let d := kmlDesc e
  let sty := kmlStyleOf e
  let c := coordStr e
  ["<Placemark>", s!"<name>Ping #{nm}</name>",
   s!"<description>{d}</description>", s!"<styleUrl>#{sty}</styleUrl>",
   "<Point>", s!"<coordinates>{c}</coordinates>", "</Point>", "</Placemark>"]

/-- The point-placemark loop of `write_kml` (lines 337-363): one color-coded
`Placemark` per geolocated entry. -/
def kmlPoints : List GpsEntry → List String
  | [] => []
  | e :: rest => (if isGeo e then kmlPointLines e else []) ++ kmlPoints rest

/-- `write_kml` (lines 306-369): the list of lines joined with newlines into
`export/range_test.kml`. -/
def write_kml (log : List GpsEntry) : List String :=
  ["<?xml version=\"1.0\" encoding=\"UTF-8\"?>",
   "<kml xmlns=\"http://www.opengis.net/kml/2.2\">",
   "<Document>",
   "<name>Range Test Results</name>",
   "<Style id=\"goodSignal\"><IconStyle><color>ff00ff00</color></IconStyle></Style>",
   "<Style id=\"okSignal\"><IconStyle><color>ff00ffff</color></IconStyle></Style>",
   "<Style id=\"poorSignal\"><IconStyle><color>ff0000ff</color></IconStyle></Style>"]
  ++ kmlPathBlock log ++ kmlPoints log ++ ["</Document>", "</kml>"]

/-- One marker datum of the HTML map (lines 379-387). -/
structure HtmlPoint where
  lat : Option Int
  lon : Option Int
  rtt : Int
  ping : Nat
  time : Int
  rssi : Option Int
  snr : Option Int
deriving Repr, DecidableEq

/-- The geolocated point extraction shared by `write_html` (lines 374-387)
and the second variant's `export_html` (lines 890-903). -/
def htmlPoints : List GpsEntry → List HtmlPoint
  | [] => []
  | e :: rest =>
    (if isGeo e then
      match e.gps with
      | some g =>
        [⟨g.latitude, g.longitude, e.rtt * 1000, e.ping, e.timestamp,
          e.rssi, e.snr⟩]
      | none => []
     else []) ++ htmlPoints rest

/-- Structural content of the HTML export: the placeholder page produced for
an empty point list (lines 389-396), or the Leaflet map page with its
computed center and point array (lines 398-473). -/
inductive HtmlDoc where
  | placeholder
  | mapPage (centerLat centerLon : Rat) (points : List HtmlPoint)
deriving Repr, DecidableEq

/-- The map page with `center_lat`/`center_lon` as the mean of the point
coordinates (lines 398-400); the guard ensures every `lat`/`lon` is
populated, which `getD 0` reflects. -/
def mapPageOf (pts : List HtmlPoint) : HtmlDoc :=
  .mapPage
    ((pts.map fun p => ((p.lat.getD 0 : Int) : Rat)).sum / pts.length)
    ((pts.map fun p => ((p.lon.getD 0 : Int) : Rat)).sum / pts.length)
    pts

/-- `write_html` (lines 370-473): the placeholder page when no entry is
geolocated, the map page otherwise; always writes its file. -/
def write_html (log : List GpsEntry) : HtmlDoc :=
  let pts := htmlPoints log
  if pts.isEmpty then .placeholder else mapPageOf pts

/-- One file produced by the exporter, carrying its structural content;
each corresponds to a fixed path under `export/`. -/
inductive ExportFile where
  | csv (rows : List (List String))
  | json (entries : List GpsEntry)
  | geojson (features : List Feature)
  | kml (kmlLines : List String)
  | html (doc : HtmlDoc)
deriving Repr, DecidableEq

/-- `write_logs` (lines 229-239): returns immediately when `test_data` is
empty — writing no file at all — and otherwise writes all five formats. -/
def write_logs (log : List GpsEntry) : List ExportFile :=
  if log.isEmpty then []
  else [.csv (write_csv log), .json (write_json log),
        .geojson (write_geojson log), .kml (write_kml log),
        .html (write_html log)]

/-- The two export files touched by `write_csv`/`write_json`, as a tiny
file-system fragment; `none` models a missing file.  Both writers open
their fixed target path with mode `'w'`, replacing any previous content. -/
structure ExportDir where
  csvFile : Option (List (List String))
  jsonFile : Option (List GpsEntry)
deriving Repr, DecidableEq

/-- Effect of one `write_csv` invocation on the export directory. -/
def writeCsvFile (fs : ExportDir) (log : List GpsEntry) : ExportDir :=
  { fs with csvFile := some (write_csv log) }

/-- Effect of one `write_json` invocation on the export directory. -/
def writeJsonFile (fs : ExportDir) (log : List GpsEntry) : ExportDir :=
  { fs with jsonFile := some (write_json log) }

end RangeTestClientV1

namespace RangeTestClientV2

/-- `RangeTestClient.got_packet`, second variant (`src/rtest_gps.py` lines
749-782): on a truthy pong whose sequence is pending the measurement is
always appended to `test_data`, with `gps` recorded exactly as sampled
(possibly `None`) and no link fields; `export_data` may then run.
`self.config` is in scope but not consulted. -/
def got_packet (cfg : Config) (st : GpsClientState) (m : InMsg) (now : Int)
    (gps : Option Gps) : GpsClientState :=
  match m with
  | .pong n =>
    if n = 0 then st
    else
      match findPing n st.pings with
      | some t =>
        { st with
          pings := erasePing n st.pings
          success := st.success + 1
          test_data := st.test_data ++ [⟨n, now - t, now, gps, none, none⟩] }
      | none => st
  | _ => st

/-- The second variant's `export_html` (lines 886-984): when no entry is
geolocated it returns without writing anything (`if not points: return`,
lines 905-906) — there is no placeholder page — and otherwise writes the
map page. -/
def export_html (log : List GpsEntry) : Option RangeTestClientV1.HtmlDoc :=
  let pts := RangeTestClientV1.htmlPoints log
  if pts.isEmpty then none else some (RangeTestClientV1.mapPageOf pts)

end RangeTestClientV2

/-- A geolocated sample entry for concrete instantiations. -/
def demoGps : Gps := ⟨some 45, some 9, some 120, some 5, none, none⟩

/-- A geolocated measurement entry. -/
def demoGeoEntry : GpsEntry := ⟨1, 2, 100, some demoGps, some (-90), some 7⟩

/-- A measurement entry without geolocation. -/
def demoPlainEntry : GpsEntry := ⟨2, 3, 200, none, none, none⟩

/-- The inductive invariant of the client state: the resolved and pending
probes together never exceed the probe counter, the success counter counts
exactly the appended log lines, the pending table is a dict (no duplicate
keys), and every pending sequence number was allocated by a tick. -/
def SimpleRangeTest.Inv (st : ClientState) : Prop :=
  st.success + st.pings.length ≤ st.count ∧
  st.success = st.log.length ∧
  (st.pings.map Prod.fst).Nodup ∧
  ∀ p ∈ st.pings, 1 ≤ p.1 ∧ p.1 ≤ st.count

/-! ### Lemmas about the pending-table operations -/

theorem findPing_eq_none (n : Nat) (ps : List (Nat × Int)) :
    findPing n ps = none ↔ n ∉ ps.map Prod.fst := by
  induction ps with
  | nil => simp [findPing]
  | cons p rest ih =>
    obtain ⟨k, t⟩ := p
    by_cases h : k = n
    · subst h; simp [findPing]
    · have h' : n ≠ k := fun e => h e.symm
      simp [findPing, h, h', ih]

theorem findPing_mem {n : Nat} {t : Int} :
    ∀ {ps : List (Nat × Int)}, findPing n ps = some t → (n, t) ∈ ps := by
  intro ps
  induction ps with
  | nil => intro h; simp [findPing] at h
  | cons p rest ih =>
    obtain ⟨k, u⟩ := p
    by_cases hk : k = n
    · subst hk
      intro h
      simp [findPing] at h
      simp [h]
    · intro h
      simp [findPing, hk] at h
      exact List.mem_cons_of_mem _ (ih h)

theorem findPing_eq_some_of_mem {ps : List (Nat × Int)}
    (hnd : (ps.map Prod.fst).Nodup) {n : Nat} {t : Int}
    (h : (n, t) ∈ ps) : findPing n ps = some t := by
  induction ps with
  | nil => cases h
  | cons p rest ih =>
    obtain ⟨k, u⟩ := p
    simp only [List.map_cons, List.nodup_cons] at hnd
    rcases List.mem_cons.mp h with h | h
    · rw [Prod.mk.injEq] at h
      obtain ⟨rfl, rfl⟩ := h
      simp [findPing]
    · have hk : k ≠ n := by
        intro e
        subst e
        exact hnd.1 (List.mem_map_of_mem Prod.fst h)
      simp [findPing, hk, ih hnd.2 h]

theorem erasePing_sublist (n : Nat) (ps : List (Nat × Int)) :
    List.Sublist (erasePing n ps) ps := by
  induction ps with
  | nil => simp [erasePing]
  | cons p rest ih =>
    obtain ⟨k, t⟩ := p
    by_cases h : k = n
    · simp only [erasePing, if_pos h]
      exact (List.sublist_cons_self _ _)
    · simp only [erasePing, if_neg h]
      exact ih.cons₂ (k, t)

theorem length_erasePing {n : Nat} {t : Int} :
    ∀ {ps : List (Nat × Int)}, findPing n ps = some t →
      (erasePing n ps).length + 1 = ps.length := by
  intro ps
  induction ps with
  | nil => intro h; simp [findPing] at h
  | cons p rest ih =>
    obtain ⟨k, u⟩ := p
    by_cases hk : k = n
    · intro _; simp [erasePing, hk]
    · intro h
      simp only [findPing, if_neg hk] at h
      simp [erasePing, hk, ← ih h]

theorem findPing_erasePing (n : Nat) {ps : List (Nat × Int)}
    (hnd : (ps.map Prod.fst).Nodup) :
    findPing n (erasePing n ps) = none := by
  induction ps with
  | nil => simp [erasePing, findPing]
  | cons p rest ih =>
    obtain ⟨k, t⟩ := p
    simp only [List.map_cons, List.nodup_cons] at hnd
    by_cases hk : k = n
    · subst hk
      simp only [erasePing, if_pos rfl]
      exact (findPing_eq_none k rest).mpr hnd.1
    · simp [erasePing, hk, findPing, ih hnd.2]

theorem setPing_fresh (n : Nat) (t : Int) {ps : List (Nat × Int)}
    (h : n ∉ ps.map Prod.fst) :
    setPing n t ps = ps ++ [(n, t)] := by
  induction ps with
  | nil => simp [setPing]
  | cons p rest ih =>
    obtain ⟨k, u⟩ := p
    simp only [List.map_cons, List.mem_cons, not_or] at h
    have hk : ¬ k = n := fun e => h.1 e.symm
    simp [setPing, hk, ih h.2]

theorem sweepPings_fst_sublist (timeout now : Int) (ps : List (Nat × Int)) :
    List.Sublist (sweepPings timeout now ps).1 ps := by
  induction ps with
  | nil => simp [sweepPings]
  | cons p rest ih =>
    obtain ⟨n, t⟩ := p
    by_cases h : timeout < now - t
    · simp only [sweepPings, if_pos h]
      exact ih.cons (n, t)
    · simp only [sweepPings, if_neg h]
      exact ih.cons₂ (n, t)

theorem mem_sweepPings_fst {timeout now : Int} {ps : List (Nat × Int)}
    {p : Nat × Int} :
    p ∈ (sweepPings timeout now ps).1 ↔ p ∈ ps ∧ now - p.2 ≤ timeout := by
  induction ps with
  | nil => simp [sweepPings]
  | cons q rest ih =>
    obtain ⟨n, t⟩ := q
    by_cases h : timeout < now - t
    · simp only [sweepPings, if_pos h, List.mem_cons]
      constructor
      · intro hp
        exact ⟨Or.inr (ih.mp hp).1, (ih.mp hp).2⟩
      · rintro ⟨hp | hp, hle⟩
        · subst hp; simp at hle; omega
        · exact ih.mpr ⟨hp, hle⟩
    · simp only [sweepPings, if_neg h, List.mem_cons]
      constructor
      · rintro (hp | hp)
        · refine ⟨Or.inl hp, ?_⟩
          subst hp
          simpa using not_lt.mp h
        · exact ⟨Or.inr (ih.mp hp).1, (ih.mp hp).2⟩
      · rintro ⟨hp | hp, hle⟩
        · exact Or.inl hp
        · exact Or.inr (ih.mpr ⟨hp, hle⟩)

theorem sweepPings_snd_eq (timeout now : Int) (ps : List (Nat × Int)) :
    (sweepPings timeout now ps).2
      = (ps.filter fun p => decide (timeout < now - p.2)).map Prod.fst := by
  induction ps with
  | nil => simp [sweepPings]
  | cons p rest ih =>
    obtain ⟨n, t⟩ := p
    by_cases h : timeout < now - t
    · simp [sweepPings, h, List.filter_cons, ih]
    · simp [sweepPings, h, List.filter_cons, ih]

/-! ### The client invariant is preserved by every step -/

namespace SimpleRangeTest

theorem inv_init : Inv initState := by
  refine ⟨by simp [initState], by simp [initState], by simp [initState], ?_⟩
  intro p hp
  simp [initState] at hp

theorem inv_ping {st : ClientState} (h : Inv st) (now : Int) (hd so : Bool) :
    Inv (ping st now hd so) := by
  obtain ⟨h1, h2, h3, h4⟩ := h
  cases hd with
  | false => exact ⟨h1, h2, h3, h4⟩
  | true =>
    cases so with
    | false =>
      refine ⟨by simpa [ping] using Nat.le_succ_of_le h1, h2, h3, ?_⟩
      intro p hp
      have h5 := h4 p hp
      exact ⟨h5.1, Nat.le_succ_of_le h5.2⟩
    | true =>
      have hfresh : st.count + 1 ∉ st.pings.map Prod.fst := by
        intro hmem
        obtain ⟨p, hp, he⟩ := List.mem_map.mp hmem
        have h5 := (h4 p hp).2
        omega
      have hset := setPing_fresh (st.count + 1) now hfresh
      have e : ping st now true true
          = { st with
              count := st.count + 1
              pings := setPing (st.count + 1) now st.pings } := rfl
      rw [e]
      refine ⟨?_, h2, ?_, ?_⟩
      · simp only [hset, List.length_append, List.length_cons, List.length_nil]
        omega
      · simp only [hset, List.map_append, List.map_cons, List.map_nil]
        rw [List.nodup_append]
        refine ⟨h3, List.nodup_singleton _, ?_⟩
        intro a ha hb
        simp only [List.mem_singleton] at hb
        subst hb
        exact hfresh ha
      · intro p hp
        simp only [hset, List.mem_append, List.mem_singleton] at hp
        rcases hp with hp | hp
        · have h5 := h4 p hp
          exact ⟨h5.1, Nat.le_succ_of_le h5.2⟩
        · subst hp
          exact ⟨by omega, le_refl _⟩

theorem inv_got_packet {st : ClientState} (h : Inv st) (m : InMsg) (now : Int) :
    Inv (got_packet st m now) := by
  obtain ⟨h1, h2, h3, h4⟩ := h
  match m with
  | .malformed => exact ⟨h1, h2, h3, h4⟩
  | .nonPong => exact ⟨h1, h2, h3, h4⟩
  | .pong n =>
    by_cases hn : n = 0
    · simpa [got_packet, hn] using ⟨h1, h2, h3, h4⟩
    · cases hfp : findPing n st.pings with
      | none => simpa [got_packet, hn, hfp] using ⟨h1, h2, h3, h4⟩
      | some t =>
        have hlen : (erasePing n st.pings).length + 1 = st.pings.length :=
          length_erasePing hfp
        have hsub := erasePing_sublist n st.pings
        have hnd' : ((erasePing n st.pings).map Prod.fst).Nodup :=
          h3.sublist (hsub.map Prod.fst)
        have e : got_packet st (.pong n) now
            = { st with
                pings := erasePing n st.pings
                success := st.success + 1
                log := st.log ++ [⟨n, now - t, now⟩] } := by
          simp [got_packet, hn, hfp]
        rw [e]
        refine ⟨?_, ?_, hnd', ?_⟩
        · show st.success + 1 + (erasePing n st.pings).length ≤ st.count
          omega
        · show st.success + 1 = (st.log ++ [(⟨n, now - t, now⟩ : MeasurementEntry)]).length
          simp [h2]
        · intro p hp
          exact h4 p (hsub.subset hp)

theorem inv_sweep {st : ClientState} (h : Inv st) (timeout now : Int) :
    Inv (sweep_expired st timeout now).1 := by
  obtain ⟨h1, h2, h3, h4⟩ := h
  have hsub := sweepPings_fst_sublist timeout now st.pings
  refine ⟨?_, h2, h3.sublist (hsub.map Prod.fst), ?_⟩
  · have := hsub.length_le
    simp only [sweep_expired]
    omega
  · intro p hp
    exact h4 p (hsub.subset hp)

theorem inv_reachable {st : ClientState} (h : Reachable st) : Inv st := by
  induction h with
  | init => exact inv_init
  | step _ hs ih =>
    cases hs with
    | tick now hd so => exact inv_ping ih now hd so
    | recv m now => exact inv_got_packet ih m now
    | sweep timeout now => exact inv_sweep ih timeout now

end SimpleRangeTest

/-! ### Counting lemmas for the exporters -/

theorem write_geojson_foldl_length (log : List GpsEntry)
    (acc : List RangeTestClientV1.Feature) :
    (log.foldl
        (fun fs e => if isGeo e then fs ++ [RangeTestClientV1.featureOf e] else fs)
        acc).length
      = acc.length + countGeo log := by
  induction log generalizing acc with
  | nil => simp [countGeo]
  | cons e rest ih =>
    cases hg : isGeo e with
    | true =>
      simp only [List.foldl_cons, hg, if_pos, countGeo, List.filter_cons]
      rw [ih]
      simp [countGeo]
      omega
    | false =>
      simp only [List.foldl_cons, hg, countGeo, List.filter_cons]
      rw [ih]
      simp [countGeo, hg]

theorem kmlCoordStrs_eq (log : List GpsEntry) :
    RangeTestClientV1.kmlCoordStrs log
      = (log.filter isGeo).map RangeTestClientV1.coordStr := by
  induction log with
  | nil => rfl
  | cons e rest ih =>
    cases hg : isGeo e with
    | true => simp [RangeTestClientV1.kmlCoordStrs, hg, ih, List.filter_cons]
    | false => simp [RangeTestClientV1.kmlCoordStrs, hg, ih, List.filter_cons]

theorem kmlCoordStrs_length (log : List GpsEntry) :
    (RangeTestClientV1.kmlCoordStrs log).length = countGeo log := by
  rw [kmlCoordStrs_eq, List.length_map]
  rfl

/-! ### Unfolding helpers for the collectors -/

theorem got_packet_not_pending (st : ClientState) (n : Nat) (now : Int)
    (h : findPing n st.pings = none) :
    SimpleRangeTest.got_packet st (.pong n) now = st := by
  by_cases hn : n = 0
  · simp [SimpleRangeTest.got_packet, hn]
  · simp [SimpleRangeTest.got_packet, hn, h]

theorem got_packet_v1_not_pending (cfg : Config) (st : GpsClientState)
    (n : Nat) (now : Int) (gps : Option Gps) (rssi snr : Option Int)
    (h : findPing n st.pings = none) :
    RangeTestClientV1.got_packet cfg st (.pong n) now gps rssi snr = st := by
  by_cases hn : n = 0
  · simp [RangeTestClientV1.got_packet, hn]
  · simp [RangeTestClientV1.got_packet, hn, h]

theorem got_packet_v2_not_pending (cfg : Config) (st : GpsClientState)
    (n : Nat) (now : Int) (gps : Option Gps)
    (h : findPing n st.pings = none) :
    RangeTestClientV2.got_packet cfg st (.pong n) now gps = st := by
  by_cases hn : n = 0
  · simp [RangeTestClientV2.got_packet, hn]
  · simp [RangeTestClientV2.got_packet, hn, h]

theorem got_packet_v1_pings (cfg : Config) (st : GpsClientState)
    (n : Nat) (now : Int) (gps : Option Gps) (rssi snr : Option Int)
    (t : Int) (hn : ¬ n = 0) (hpend : findPing n st.pings = some t) :
    (RangeTestClientV1.got_packet cfg st (.pong n) now gps rssi snr).pings
      = erasePing n st.pings := by
  cases gps with
  | none => simp [RangeTestClientV1.got_packet, hn, hpend]
  | some g =>
    cases hg : gpsTruthyLat g with
    | true => simp [RangeTestClientV1.got_packet, hn, hpend, hg]
    | false => simp [RangeTestClientV1.got_packet, hn, hpend, hg]

/-! ### The claims -/

/-- C1 counterexample: in the cited first `rtest_gps.py` variant of
`got_packet` (lines 149-201), a matching response for pending sequence 1,
arriving with age 3 < `ping_timeout` = 10, whose GPS sample is absent,
produces ZERO MeasurementEntries (while still being consumed: `success`
becomes 1), refuting "exactly one MeasurementEntry is produced". -/
theorem c1_counterexample :
    (RangeTestClientV1.got_packet DEFAULT_CONFIG ⟨[(1, 2)], 1, 0, []⟩
        (.pong 1) 5 none none none).test_data = []
    ∧ (RangeTestClientV1.got_packet DEFAULT_CONFIG ⟨[(1, 2)], 1, 0, []⟩
        (.pong 1) 5 none none none).success = 1 :=
  ⟨rfl, rfl⟩

/-- C1 (amended): a matching response for a currently pending sequence is
consumed exactly once.  In `SimpleRangeTest.got_packet` exactly one
MeasurementEntry with `rtt = now - sent_at ≥ 0` is appended and `success`
increments by one; in the first `rtest_gps.py` variant exactly one entry is
appended when the GPS sample is geolocated and none otherwise.  In both, any
second response for the same sequence leaves the state unchanged. -/
theorem c1_matched_response (st : ClientState) (gst : GpsClientState)
    (n : Nat) (now t u timeout : Int) (cfg : Config)
    (gps : Option Gps) (rssi snr : Option Int)
    (hn : 0 < n)
    (hpend : findPing n st.pings = some t)
    (hsent : t ≤ now)
    (hbefore : now - t ≤ timeout)
    (hnd : (st.pings.map Prod.fst).Nodup)
    (hgpend : findPing n gst.pings = some u)
    (hgnd : (gst.pings.map Prod.fst).Nodup) :
    ((SimpleRangeTest.got_packet st (.pong n) now).log
        = st.log ++ [⟨n, now - t, now⟩]
      ∧ 0 ≤ now - t
      ∧ (SimpleRangeTest.got_packet st (.pong n) now).success = st.success + 1
      ∧ (∀ now₂, SimpleRangeTest.got_packet
          (SimpleRangeTest.got_packet st (.pong n) now) (.pong n) now₂
          = SimpleRangeTest.got_packet st (.pong n) now))
    ∧ ((RangeTestClientV1.got_packet cfg gst (.pong n) now gps rssi snr).test_data
        = (if (match gps with | some g => gpsTruthyLat g | none => false)
           then gst.test_data ++ [⟨n, now - u, now, gps, rssi, snr⟩]
           else gst.test_data))
    ∧ (∀ now₂ gps₂ rssi₂ snr₂, RangeTestClientV1.got_packet cfg
        (RangeTestClientV1.got_packet cfg gst (.pong n) now gps rssi snr)
        (.pong n) now₂ gps₂ rssi₂ snr₂
        = RangeTestClientV1.got_packet cfg gst (.pong n) now gps rssi snr) := by
  have hne : ¬ n = 0 := by omega
  have e : SimpleRangeTest.got_packet st (.pong n) now
      = { st with
          pings := erasePing n st.pings
          success := st.success + 1
          log := st.log ++ [⟨n, now - t, now⟩] } := by
    simp [SimpleRangeTest.got_packet, hne, hpend]
  have hnone := findPing_erasePing n hnd
  have hgnone := findPing_erasePing n hgnd
  refine ⟨⟨by rw [e], by omega, by rw [e], ?_⟩, ?_, ?_⟩
  · intro now₂
    rw [e]
    exact got_packet_not_pending _ n now₂ hnone
  · cases gps with
    | none => simp [RangeTestClientV1.got_packet, hne, hgpend]
    | some g =>
      cases hg : gpsTruthyLat g with
      | true => simp [RangeTestClientV1.got_packet, hne, hgpend, hg]
      | false => simp [RangeTestClientV1.got_packet, hne, hgpend, hg]
  · intro now₂ gps₂ rssi₂ snr₂
    refine got_packet_v1_not_pending cfg _ n now₂ gps₂ rssi₂ snr₂ ?_
    rw [got_packet_v1_pings cfg gst n now gps rssi snr u hne hgpend]
    exact hgnone

/-- C1 witness: the amended theorem applied at pending sequence 1 sent at
t = 2, matched at now = 5 (age 3 < timeout 10), with a geolocated sample. -/
theorem c1_witness :
    (SimpleRangeTest.got_packet ⟨[(1, 2)], 1, 0, []⟩ (.pong 1) 5).log
        = [] ++ [⟨1, 5 - 2, 5⟩]
    ∧ SimpleRangeTest.got_packet
        (SimpleRangeTest.got_packet ⟨[(1, 2)], 1, 0, []⟩ (.pong 1) 5) (.pong 1) 9
        = SimpleRangeTest.got_packet ⟨[(1, 2)], 1, 0, []⟩ (.pong 1) 5
    ∧ (RangeTestClientV1.got_packet DEFAULT_CONFIG ⟨[(1, 2)], 1, 0, []⟩
        (.pong 1) 5 (some demoGps) none none).test_data
        = [] ++ [⟨1, 5 - 2, 5, some demoGps, none, none⟩] := by
  have h := c1_matched_response ⟨[(1, 2)], 1, 0, []⟩ ⟨[(1, 2)], 1, 0, []⟩
    1 5 2 2 10 DEFAULT_CONFIG (some demoGps) none none
    (by decide) (by decide) (by decide) (by decide) (by decide) (by decide)
    (by decide)
  refine ⟨h.1.1, h.1.2.2.2 9, ?_⟩
  have h2 := h.2.1
  simpa [demoGps, gpsTruthyLat] using h2

/-- C2 counterexample: on a failed send from the initial state the probe
counter becomes 1, but the pending table stays empty — `pings[count] = now`
runs only after `p.send()` returns, so no "just-inserted entry" exists that
could later time out. -/
theorem c2_counterexample :
    (SimpleRangeTest.ping initState 7 true false).count = 1
    ∧ (SimpleRangeTest.ping initState 7 true false).pings = []
    ∧ findPing 1 (SimpleRangeTest.ping initState 7 true false).pings = none :=
  ⟨rfl, rfl, rfl⟩

/-- C2 (amended): on every tick with a resolved destination the probe
counter is incremented (also on a failed send), but the pending entry
`(sequence, sent_at)` is registered only AFTER a successful send; a failed
send leaves the pending table unchanged, so no entry remains to time out.
Without a resolved destination the tick changes nothing. -/
theorem c2_ping_registration (st : ClientState) (now : Int) (so : Bool) :
    (SimpleRangeTest.ping st now true true).count = st.count + 1
    ∧ (SimpleRangeTest.ping st now true true).pings
        = setPing (st.count + 1) now st.pings
    ∧ (SimpleRangeTest.ping st now true false).count = st.count + 1
    ∧ (SimpleRangeTest.ping st now true false).pings = st.pings
    ∧ SimpleRangeTest.ping st now false so = st :=
  ⟨rfl, rfl, rfl, rfl, rfl⟩

/-- C3: the timeout sweep evicts every pending entry older than
`ping_timeout` exactly once, emits exactly one loss event for it, appends no
MeasurementEntry, and leaves a state in which a late response for the
evicted sequence is a no-op — no sequence yields both a measurement and a
loss event. -/
theorem c3_sweep_evicts_once (st : ClientState) (timeout now now₂ : Int)
    (n : Nat) (t : Int)
    (hnd : (st.pings.map Prod.fst).Nodup)
    (hmem : (n, t) ∈ st.pings)
    (hexp : timeout < now - t) :
    (SimpleRangeTest.sweep_expired st timeout now).2.count n = 1
    ∧ findPing n (SimpleRangeTest.sweep_expired st timeout now).1.pings = none
    ∧ (SimpleRangeTest.sweep_expired st timeout now).1.log = st.log
    ∧ (SimpleRangeTest.sweep_expired st timeout now).1.success = st.success
    ∧ SimpleRangeTest.got_packet (SimpleRangeTest.sweep_expired st timeout now).1
        (.pong n) now₂ = (SimpleRangeTest.sweep_expired st timeout now).1 := by
  have hkeptnone : findPing n (sweepPings timeout now st.pings).1 = none := by
    cases hfk : findPing n (sweepPings timeout now st.pings).1 with
    | none => rfl
    | some u =>
      exfalso
      have hmem' := findPing_mem hfk
      have h2 := mem_sweepPings_fst.mp hmem'
      have e1 := findPing_eq_some_of_mem hnd h2.1
      have e2 := findPing_eq_some_of_mem hnd hmem
      rw [e1] at e2
      have : u = t := by
        have := Option.some.inj e2
        omega
      subst this
      have := h2.2
      omega
  refine ⟨?_, hkeptnone, rfl, rfl, ?_⟩
  · show (sweepPings timeout now st.pings).2.count n = 1
    rw [sweepPings_snd_eq]
    have hfil : (n, t) ∈ st.pings.filter (fun p => decide (timeout < now - p.2)) :=
      List.mem_filter.mpr ⟨hmem, by simpa using hexp⟩
    have hfilnd :
        ((st.pings.filter fun p => decide (timeout < now - p.2)).map Prod.fst).Nodup :=
      hnd.sublist ((List.filter_sublist _).map Prod.fst)
    exact List.count_eq_one_of_mem hfilnd (List.mem_map_of_mem Prod.fst hfil)
  · exact got_packet_not_pending _ n now₂ hkeptnone

/-- C3 witness: from a state with pending probes 1 (sent at 0) and 2 (sent
at 8), a sweep at now = 7 + 0 = 7 with timeout 5: probe 1 has age 7 > 5. -/
theorem c3_witness :
    (SimpleRangeTest.sweep_expired ⟨[(1, 0), (2, 8)], 2, 0, []⟩ 5 7).2.count 1 = 1
    ∧ findPing 1
        (SimpleRangeTest.sweep_expired ⟨[(1, 0), (2, 8)], 2, 0, []⟩ 5 7).1.pings
        = none
    ∧ (SimpleRangeTest.sweep_expired ⟨[(1, 0), (2, 8)], 2, 0, []⟩ 5 7).1.log
        = ([] : List MeasurementEntry) := by
  have h := c3_sweep_evicts_once ⟨[(1, 0), (2, 8)], 2, 0, []⟩ 5 7 9 1 0
    (by decide) (by decide) (by decide)
  exact ⟨h.1, h.2.1, h.2.2.1⟩

/-- C4: a malformed payload, a payload without a truthy pong field, or a
pong whose sequence is not pending (timed out or already resolved) leaves
the whole collector state — pending table, counters and log — unchanged, in
`SimpleRangeTest.got_packet` and in both `RangeTestClient.got_packet`
variants. -/
theorem c4_discard_silently (st : ClientState) (gst : GpsClientState)
    (now : Int) (n : Nat) (cfg : Config) (gps : Option Gps)
    (rssi snr : Option Int)
    (habsent : findPing n st.pings = none)
    (hgabsent : findPing n gst.pings = none) :
    SimpleRangeTest.got_packet st .malformed now = st
    ∧ SimpleRangeTest.got_packet st .nonPong now = st
    ∧ SimpleRangeTest.got_packet st (.pong n) now = st
    ∧ RangeTestClientV1.got_packet cfg gst .malformed now gps rssi snr = gst
    ∧ RangeTestClientV1.got_packet cfg gst (.pong n) now gps rssi snr = gst
    ∧ RangeTestClientV2.got_packet cfg gst .malformed now gps = gst
    ∧ RangeTestClientV2.got_packet cfg gst (.pong n) now gps = gst :=
  ⟨rfl, rfl, got_packet_not_pending st n now habsent, rfl,
   got_packet_v1_not_pending cfg gst n now gps rssi snr hgabsent, rfl,
   got_packet_v2_not_pending cfg gst n now gps hgabsent⟩

/-- C4 witness: sequence 1 is not pending (only 2 is), so a pong for 1 and
malformed payloads change nothing. -/
theorem c4_witness :
    SimpleRangeTest.got_packet ⟨[(2, 5)], 2, 0, []⟩ .malformed 9
      = (⟨[(2, 5)], 2, 0, []⟩ : ClientState)
    ∧ SimpleRangeTest.got_packet ⟨[(2, 5)], 2, 0, []⟩ (.pong 1) 9
      = (⟨[(2, 5)], 2, 0, []⟩ : ClientState)
    ∧ RangeTestClientV2.got_packet DEFAULT_CONFIG ⟨[(2, 5)], 2, 0, []⟩
        (.pong 1) 9 none
      = (⟨[(2, 5)], 2, 0, []⟩ : GpsClientState) := by
  have h := c4_discard_silently ⟨[(2, 5)], 2, 0, []⟩ ⟨[(2, 5)], 2, 0, []⟩
    9 1 DEFAULT_CONFIG none none none (by decide) (by decide)
  exact ⟨h.1, h.2.2.1, h.2.2.2.2.2.2⟩

/-- C6 counterexample: under the IDENTICAL configuration (`DEFAULT_CONFIG`)
and identical input (matched pong for sequence 3, GPS sample absent), the
two `got_packet` code paths of `src/rtest_gps.py` diverge — the first
discards the measurement, the second records it — so the strict/lenient
policy is not selected by any configuration option of a single core. -/
theorem c6_counterexample :
    (RangeTestClientV1.got_packet DEFAULT_CONFIG ⟨[(3, 1)], 3, 0, []⟩
        (.pong 3) 4 none none none).test_data = []
    ∧ (RangeTestClientV2.got_packet DEFAULT_CONFIG ⟨[(3, 1)], 3, 0, []⟩
        (.pong 3) 4 none).test_data = [⟨3, 3, 4, none, none, none⟩] :=
  ⟨rfl, rfl⟩

/-- C6 (amended): the strict/lenient policy is hard-coded as two divergent
code paths.  On a matched GPS-less response the first variant always
discards the entry and the second always records it, and neither behaviour
depends on the configuration in any way (no `DEFAULT_CONFIG` key selects a
policy). -/
theorem c6_policy_hardcoded (cfg cfg' : Config) (st : GpsClientState)
    (n : Nat) (now t : Int)
    (hn : 0 < n) (hpend : findPing n st.pings = some t) :
    RangeTestClientV1.got_packet cfg st (.pong n) now none none none
      = RangeTestClientV1.got_packet cfg' st (.pong n) now none none none
    ∧ (RangeTestClientV1.got_packet cfg st (.pong n) now none none none).test_data
      = st.test_data
    ∧ RangeTestClientV2.got_packet cfg st (.pong n) now none
      = RangeTestClientV2.got_packet cfg' st (.pong n) now none
    ∧ (RangeTestClientV2.got_packet cfg st (.pong n) now none).test_data
      = st.test_data ++ [⟨n, now - t, now, none, none, none⟩] := by
  have hne : ¬ n = 0 := by omega
  refine ⟨rfl, ?_, rfl, ?_⟩
  · simp [RangeTestClientV1.got_packet, hne, hpend]
  · simp [RangeTestClientV2.got_packet, hne, hpend]

/-- C6 witness: the amended theorem applied at pending sequence 3. -/
theorem c6_witness :
    (RangeTestClientV1.got_packet DEFAULT_CONFIG ⟨[(3, 1)], 3, 9, [demoGeoEntry]⟩
        (.pong 3) 4 none none none).test_data = [demoGeoEntry]
    ∧ (RangeTestClientV2.got_packet DEFAULT_CONFIG ⟨[(3, 1)], 3, 9, [demoGeoEntry]⟩
        (.pong 3) 4 none).test_data
      = [demoGeoEntry] ++ [⟨3, 4 - 1, 4, none, none, none⟩] := by
  have h := c6_policy_hardcoded DEFAULT_CONFIG DEFAULT_CONFIG
    ⟨[(3, 1)], 3, 9, [demoGeoEntry]⟩ 3 4 1 (by decide) (by decide)
  exact ⟨h.2.1, h.2.2.2⟩

/-- C7 counterexample: with an empty Measurement Log, `write_logs` — the
export entry point cited by the claim — returns before writing ANY file
(`if not self.test_data: return`), and the second variant's `export_html`
likewise writes nothing (no placeholder page), refuting "invoking the
exporters still produces output files". -/
theorem c7_counterexample :
    RangeTestClientV1.write_logs [] = []
    ∧ RangeTestClientV2.export_html [] = none :=
  ⟨rfl, rfl⟩

/-- C7 (amended): on an empty log `write_logs` writes no files and the
second variant's `export_html` writes nothing; only when the individual
writers are invoked directly on the empty log do they produce the claimed
degenerate outputs — CSV with the header row only, the first variant's
placeholder HTML page, a KML Document with no Placemark, and an empty
GeoJSON feature list. -/
theorem c7_empty_log_exports :
    RangeTestClientV1.write_logs [] = []
    ∧ RangeTestClientV1.write_csv [] = [RangeTestClientV1.csvHeader]
    ∧ RangeTestClientV1.write_html [] = RangeTestClientV1.HtmlDoc.placeholder
    ∧ (RangeTestClientV1.write_kml []).count "<Placemark>" = 0
    ∧ RangeTestClientV1.write_geojson [] = []
    ∧ RangeTestClientV2.export_html [] = none := by
  refine ⟨rfl, rfl, rfl, ?_, rfl, rfl⟩
  rfl

/-- C8 counterexample: a snapshot holding exactly one geolocated entry has
one GeoJSON feature but NO KML path LineString at all — the path block is
guarded by `len(self.test_data) > 1` — so its path point count is 0, not 1. -/
theorem c8_counterexample :
    (RangeTestClientV1.write_geojson [demoGeoEntry]).length
      = countGeo [demoGeoEntry]
    ∧ countGeo [demoGeoEntry] = 1
    ∧ (RangeTestClientV1.kmlPathCoords [demoGeoEntry]).length
      ≠ countGeo [demoGeoEntry] := by
  refine ⟨by decide, by decide, by decide⟩

/-- C8 (amended): the GeoJSON feature count always equals the number of
geolocated entries; the KML path LineString holds one coordinate point per
geolocated entry, taken in log order, whenever the snapshot has more than
one entry — and does not exist (0 points) for snapshots of at most one
entry. -/
theorem c8_export_counts (log : List GpsEntry) :
    (RangeTestClientV1.write_geojson log).length = countGeo log
    ∧ (RangeTestClientV1.kmlPathCoords log).length
        = (if 1 < log.length then countGeo log else 0)
    ∧ RangeTestClientV1.kmlCoordStrs log
        = (log.filter isGeo).map RangeTestClientV1.coordStr := by
  refine ⟨?_, ?_, kmlCoordStrs_eq log⟩
  · have h := write_geojson_foldl_length log []
    simpa [RangeTestClientV1.write_geojson] using h
  · by_cases h : 1 < log.length
    · simp [RangeTestClientV1.kmlPathCoords, h, kmlCoordStrs_length]
    · simp [RangeTestClientV1.kmlPathCoords, h]

/-- C9: `write_csv` and `write_json` are pure functions of the log snapshot
whose target files are opened in mode `'w'`: re-running an export on an
unchanged log leaves the export directory fixed, and the produced file
content is independent of whatever the directory held before. -/
theorem c9_export_idempotent (fs fs' : RangeTestClientV1.ExportDir)
    (log : List GpsEntry) :
    RangeTestClientV1.writeCsvFile (RangeTestClientV1.writeCsvFile fs log) log
      = RangeTestClientV1.writeCsvFile fs log
    ∧ RangeTestClientV1.writeJsonFile (RangeTestClientV1.writeJsonFile fs log) log
      = RangeTestClientV1.writeJsonFile fs log
    ∧ (RangeTestClientV1.writeCsvFile fs log).csvFile
      = (RangeTestClientV1.writeCsvFile fs' log).csvFile
    ∧ (RangeTestClientV1.writeJsonFile fs log).jsonFile
      = (RangeTestClientV1.writeJsonFile fs' log).jsonFile :=
  ⟨rfl, rfl, rfl, rfl⟩

/-- C10: in every reachable client state `0 ≤ success ≤ count`, `success`
equals the number of measurement records appended to the log, and a matched
pending response increments both `success` and the log length by exactly
one. -/
theorem c10_success_counter_invariant (st : ClientState)
    (h : SimpleRangeTest.Reachable st) :
    st.success ≤ st.count
    ∧ st.success = st.log.length
    ∧ ∀ n now t, 0 < n → findPing n st.pings = some t →
        (SimpleRangeTest.got_packet st (.pong n) now).success = st.success + 1
        ∧ (SimpleRangeTest.got_packet st (.pong n) now).log.length
            = st.log.length + 1 := by
  obtain ⟨h1, h2, h3, h4⟩ := SimpleRangeTest.inv_reachable h
  refine ⟨by omega, h2, ?_⟩
  intro n now t hn hfp
  have hne : ¬ n = 0 := by omega
  constructor
  · simp [SimpleRangeTest.got_packet, hne, hfp]
  · simp [SimpleRangeTest.got_packet, hne, hfp]

/-- C10 witness: the invariant applied to the reachable state obtained by
one successful tick followed by its matching response. -/
theorem c10_witness :
    (SimpleRangeTest.got_packet (SimpleRangeTest.ping initState 2 true true)
        (.pong 1) 6).success
      ≤ (SimpleRangeTest.got_packet (SimpleRangeTest.ping initState 2 true true)
        (.pong 1) 6).count
    ∧ (SimpleRangeTest.got_packet (SimpleRangeTest.ping initState 2 true true)
        (.pong 1) 6).success
      = (SimpleRangeTest.got_packet (SimpleRangeTest.ping initState 2 true true)
        (.pong 1) 6).log.length := by
  have hreach : SimpleRangeTest.Reachable
      (SimpleRangeTest.got_packet (SimpleRangeTest.ping initState 2 true true)
        (.pong 1) 6) :=
    .step (.step .init (.tick initState 2 true true))
      (.recv (SimpleRangeTest.ping initState 2 true true) (.pong 1) 6)
  have h := c10_success_counter_invariant _ hreach
  exact ⟨h.1, h.2.1⟩
